import Mathlib

/-!
Shallow embedding of the backend proxy in `server/index.mjs` (an Express
server mediating between a browser client and the LeetCode GraphQL/REST
API).  JavaScript values are modelled by the inductive `JsVal`; JavaScript
numbers are rationals together with a NaN marker (`JsNum`).  Network effects
are modelled by passing the behaviour of the upstream in as an explicit
`FetchOutcome` oracle; a thrown JavaScript exception is an `Except.error`.
-/

namespace LcProxy

/-! ### Kernel-reducible string primitives

The built-in `String.toLower`, `String.trim`, `String.startsWith`,
`String.endsWith` and `String.toNat?` do not reduce inside the kernel, so
the embedding uses these character-list implementations of the same
JavaScript string operations. -/

/-- `s.toLowerCase()`. -/
def lowerStr (s : String) : String :=
  String.mk (s.data.map Char.toLower)

/-- `s.trim()` (whitespace at both ends removed). -/
def trimStr (s : String) : String :=
  String.mk (((s.data.dropWhile Char.isWhitespace).reverse.dropWhile
    Char.isWhitespace).reverse)

/-- `s.startsWith(pre)`. -/
def startsWithStr (s pre : String) : Bool :=
  pre.data.isPrefixOf s.data

/-- `s.endsWith(suf)`. -/
def endsWithStr (s suf : String) : Bool :=
  suf.data.reverse.isPrefixOf s.data.reverse

/-- Parse a nonempty all-digit string as a natural number (the fragment
of JS numeric string parsing the embedding needs). -/
def strToNat? (s : String) : Option Nat :=
  if s.data.isEmpty then none
  else if s.data.all Char.isDigit then
    some (s.data.foldl (fun n c => n * 10 + (c.toNat - 48)) 0)
  else none

/-- JavaScript numbers: either NaN or a (rational) numeric value.  The
source only manipulates numbers arising from JSON and `Number(...)`
coercions, for which rationals are adequate; infinities do not arise. -/
inductive JsNum where
  | nan : JsNum
  | num : ℚ → JsNum
  deriving DecidableEq, Repr

/-- JavaScript runtime values as they appear in the proxy: `null`,
`undefined`, booleans, numbers, strings, arrays and objects
(association lists with unique keys, first binding wins on lookup). -/
inductive JsVal where
  | vNull : JsVal
  | vUndefined : JsVal
  | vBool : Bool → JsVal
  | vNum : JsNum → JsVal
  | vStr : String → JsVal
  | vArr : List JsVal → JsVal
  | vObj : List (String × JsVal) → JsVal
  deriving Repr

namespace JsVal

/-- JS truthiness: `false`, `0`, `NaN`, `""`, `null`, `undefined` are falsy;
everything else (objects, arrays, nonzero numbers, nonempty strings) is
truthy. -/
def truthy : JsVal → Bool
  | vNull => false
  | vUndefined => false
  | vBool b => b
  | vNum .nan => false
  | vNum (.num q) => q ≠ 0
  | vStr s => s ≠ ""
  | vArr _ => true
  | vObj _ => true

/-- JS nullish test (`x == null`): true exactly for `null` and `undefined`. -/
def nullish : JsVal → Bool
  | vNull => true
  | vUndefined => true
  | _ => false

/-- Property access `o.name`: a missing key, or a receiver that is not an
object, yields `undefined` (the source only accesses fields of parsed JSON
objects; it never triggers a TypeError on the embedded paths). -/
def getField : JsVal → String → JsVal
  | vObj fields, name =>
      match fields.find? (fun p => p.1 = name) with
      | some p => p.2
      | none => vUndefined
  | _, _ => vUndefined

/-- Optional chaining `o?.name`: `undefined` when the receiver is nullish,
otherwise plain property access. -/
def optChain (v : JsVal) (name : String) : JsVal :=
  if nullish v then vUndefined else getField v name

/-- JS `a || b`. -/
def jsOr (a b : JsVal) : JsVal := if truthy a then a else b

/-- JS nullish coalescing `a ?? b`. -/
def coalesce (a b : JsVal) : JsVal := if nullish a then b else a

/-- Models the test `typeof v` being equal to the string "number" (NaN is a number). -/
def isNumberType : JsVal → Bool
  | vNum _ => true
  | _ => false

/-- Models the test `typeof v` being equal to the string "boolean". -/
def isBoolType : JsVal → Bool
  | vBool _ => true
  | _ => false

/-- `x?.length` as used on the parsed `errors` field: length of an array or
string, `undefined` otherwise (plain objects have no `length`). -/
def lengthOf : JsVal → JsVal
  | vArr xs => vNum (.num xs.length)
  | vStr s => vNum (.num s.length)
  | _ => vUndefined

/-- Models JS `Number(v)` coercion.  String parsing is simplified to the
cases the proxy can meet: the empty/whitespace string is `0`, a decimal
natural-number literal is its value, anything else is NaN (the source never
relies on fractional or signed string parses). -/
def toNumber : JsVal → JsNum
  | vNull => .num 0
  | vUndefined => .nan
  | vBool b => .num (if b then 1 else 0)
  | vNum n => n
  | vStr s =>
      let t := trimStr s
      if t = "" then .num 0
      else match strToNat? t with
        | some n => .num n
        | none => .nan
  | vArr _ => .nan
  | vObj _ => .nan

/-- Models JS `String(v)` coercion, simplified to the shapes that occur:
strings pass through, `null`/`undefined`/booleans print their keyword, an
integral number prints in decimal, and other values get a placeholder (the
embedded claims never depend on those cases). -/
def toStringJs : JsVal → String
  | vStr s => s
  | vNull => "null"
  | vUndefined => "undefined"
  | vBool b => if b then "true" else "false"
  | vNum .nan => "NaN"
  | vNum (.num q) => if q.den = 1 then toString q.num else "<number>"
  | vArr _ => "<array>"
  | vObj _ => "<object>"

end JsVal

/-! ### Headers and the session record -/

/-- A fetch `Headers` object, modelled as an ordered list of
(lowercased name, value) pairs. -/
abbrev HeaderList := List (String × String)

/-- Models the `Headers` constructor: header names are normalized to lower
case (the callers in the source never pass duplicate names). -/
def mkHeaders (init : HeaderList) : HeaderList :=
  init.map (fun p => (lowerStr p.1, p.2))

/-- Models `headers.has(name)`. -/
def hHas (hs : HeaderList) (name : String) : Bool :=
  hs.any (fun p => p.1 == lowerStr name)

/-- Models `headers.set(name, value)`: replace in place when present,
append otherwise. -/
def hSet (hs : HeaderList) (name value : String) : HeaderList :=
  let n := lowerStr name
  if hs.any (fun p => p.1 == n) then
    hs.map (fun p => if p.1 == n then (p.1, value) else p)
  else
    hs ++ [(n, value)]

/-- Models `headers.get(name)` (first match; our lists hold unique names). -/
def hGet (hs : HeaderList) (name : String) : Option String :=
  (hs.find? (fun p => p.1 == lowerStr name)).map (fun p => p.2)

/-- Normalized user profile produced by `normalizeUser`.  The primary and
secondary domain variants return objects with different key sets; the
secondary-only keys (`slug`, `real_name`) are `none` when the key is not
present at all. -/
structure UserProfile where
  id : JsVal
  name : JsVal
  is_signed_in : Bool
  is_premium : Bool
  is_verified : Option Bool
  session_id : JsVal
  slug : Option JsVal
  real_name : Option JsVal
  deriving Repr

/-- A session record held in the in-memory session map:
`{ domain, cookie, csrftoken, user, acceptLanguage }`.  Fields that a given
record does not carry (the anonymous secondary-domain records only set
`domain` and `acceptLanguage`) are `none`, i.e. `undefined`. -/
structure Session where
  domain : Option String
  cookie : Option String
  csrftoken : Option String
  user : Option UserProfile
  acceptLanguage : Option String
  deriving Repr

/-- Truthiness of an optional string field (`undefined` and the empty
string are falsy). -/
def optStrTruthy : Option String → Bool
  | some s => s ≠ ""
  | none => false

/-- Models `session?.domain || defaultDomain` with the default
`leetcode.com` of `lcFetch`, `lcSubmit` and `lcSubmissionCheck`. -/
def sessionDomain (session : Option Session) : String :=
  match session with
  | none => "leetcode.com"
  | some s =>
      match s.domain with
      | some d => if d = "" then "leetcode.com" else d
      | none => "leetcode.com"

/-! ### lcFetch -/

/-- The request handed to `fetch` by `lcFetch`: target URL and final
header list (method and body are irrelevant to the embedded claims). -/
structure FetchRequest where
  url : String
  headers : HeaderList
  deriving Repr, DecidableEq

/-- Embedding of `lcFetch(session, path, init)` (source lines 57-74):
build the URL from the session domain unless `path` already starts with
"http"; set the cookie and csrf headers from the session when truthy; set
the accept-language header from the session when truthy and not supplied
by the caller; default the referer and origin headers to the domain when
absent. -/
def lcFetchHeaders (session : Option Session) (initHeaders : HeaderList) : HeaderList :=
  let domain := sessionDomain session
  let h0 := mkHeaders initHeaders
  let h1 :=
    match session.bind Session.cookie with
    | some c => if c = "" then h0 else hSet h0 "cookie" c
    | none => h0
  let h2 :=
    match session.bind Session.csrftoken with
    | some c => if c = "" then h1 else hSet h1 "x-csrftoken" c
    | none => h1
  let h3 :=
    match session.bind Session.acceptLanguage with
    | some al =>
        if al ≠ "" ∧ hHas h2 "accept-language" = false then
          hSet h2 "accept-language" al
        else h2
    | none => h2
  let h4 := if hHas h3 "referer" then h3 else hSet h3 "referer" ("https://" ++ domain ++ "/")
  let h5 := if hHas h4 "origin" then h4 else hSet h4 "origin" ("https://" ++ domain)
  h5

/-- The request `lcFetch` hands to `fetch`: the URL built from the
session domain unless `path` is already absolute (the source tests
`path.startsWith('http')`), together with the final headers. -/
def lcFetch (session : Option Session) (path : String) (initHeaders : HeaderList) :
    FetchRequest :=
  let domain := sessionDomain session
  { url := if startsWithStr path "http" then path else "https://" ++ domain ++ path,
    headers := lcFetchHeaders session initHeaders }

/-! ### Upstream responses and the request helpers -/

/-- One upstream HTTP response: status, body text, and the result of
`JSON.parse(bodyText)` (`none` when the parse throws).  The pair
(`bodyText`, `bodyJson`) is supplied by the oracle; theorems that need the
parse to succeed take it as a hypothesis. -/
structure HttpResponse where
  status : Nat
  bodyText : String
  bodyJson : Option JsVal

/-- Outcome of one `fetch` call: either the promise rejects (a network
error, which the helpers do not catch) or a response arrives. -/
inductive FetchOutcome where
  | netError (e : String)
  | response (resp : HttpResponse)

/-- `resp.ok` of the fetch API: status in the range 200-299. -/
def respOk (status : Nat) : Bool :=
  200 ≤ status && status ≤ 299

/-- Result object of `lcGraphql`: `{ ok, status, error?, raw?, data? }`. -/
structure GqlResult where
  ok : Bool
  status : Nat
  error : Option String
  raw : Option JsVal
  data : Option JsVal
  deriving Repr

/-- Embedding of `lcGraphql` (source lines 301-327).  A rejected fetch
propagates as `Except.error`; otherwise: unparseable body yields the
INVALID_JSON failure carrying the raw text, a non-2xx status yields the
HTTP_ERROR failure carrying the parsed body, a nonempty GraphQL `errors`
array yields the GRAPHQL_ERROR failure, and otherwise the `data` field is
returned with `ok := true`. -/
def lcGraphql (o : FetchOutcome) : Except String GqlResult :=
  match o with
  | .netError e => .error e
  | .response resp =>
      match resp.bodyJson with
      | none =>
          .ok { ok := false, status := resp.status, error := some "INVALID_JSON",
                raw := some (.vStr resp.bodyText), data := none }
      | some json =>
          if respOk resp.status = false then
            .ok { ok := false, status := resp.status, error := some "HTTP_ERROR",
                  raw := some json, data := none }
          else
            let errs := JsVal.getField json "errors"
            let errsLen := if errs.nullish then JsVal.vUndefined else errs.lengthOf
            if errsLen.truthy then
              .ok { ok := false, status := 200, error := some "GRAPHQL_ERROR",
                    raw := some json, data := none }
            else
              .ok { ok := true, status := 200, error := none, raw := none,
                    data := some (JsVal.getField json "data") }

/-- Which of the two query shapes of a fallback pair was sent. -/
inductive QueryShape where
  | primaryShape
  | alternateShape
  deriving DecidableEq, Repr

/-- The two-query fallback pattern shared by `lcProblemsetQuestionList`
(source lines 293-299) and `lcQuestion` (source lines 329-336): run the
first query; if it is not ok run the second; return the second result when
it is ok, else the FIRST result.  `oA`/`oB` are the upstream outcomes of
the two query shapes; the second component records which queries were
actually issued. -/
def queryWithFallback (oA oB : FetchOutcome) :
    Except String GqlResult × List QueryShape :=
  match lcGraphql oA with
  | .error e => (.error e, [.primaryShape])
  | .ok first =>
      if first.ok then (.ok first, [.primaryShape])
      else
        match lcGraphql oB with
        | .error e => (.error e, [.primaryShape, .alternateShape])
        | .ok second =>
            (if second.ok then .ok second else .ok first,
             [.primaryShape, .alternateShape])

/-- `lcProblemsetQuestionList(session, variables)`: the fallback pair
(QUERY_PROBLEMSET_LIST, QUERY_PROBLEMSET_LIST_TITLECN).  The query text
does not influence control flow once the upstream outcome of each shape is
given, so the embedding is the shared fallback combinator. -/
def lcProblemsetQuestionList (oA oB : FetchOutcome) :
    Except String GqlResult × List QueryShape :=
  queryWithFallback oA oB

/-- `lcQuestion(session, titleSlug)`: the fallback pair
(QUERY_QUESTION, QUERY_QUESTION_TITLECN). -/
def lcQuestion (oA oB : FetchOutcome) :
    Except String GqlResult × List QueryShape :=
  queryWithFallback oA oB

/-- The `json` local of `lcSubmit` and `lcSubmissionCheck`: starts as
`null` and becomes `JSON.parse(rawText)` when the body text is truthy and
the parse does not throw. -/
def parsedBody (resp : HttpResponse) : JsVal :=
  if resp.bodyText ≠ "" then resp.bodyJson.getD .vNull else .vNull

/-- Result object of `lcSubmit`: `{ ok, status, error?, raw?, submissionId? }`. -/
structure SubmitResult where
  ok : Bool
  status : Nat
  error : Option String
  raw : Option JsVal
  submissionId : Option JsNum
  deriving Repr

/-- Embedding of `lcSubmit` (source lines 76-106) from the point the
response arrives: `rawText` is the body text (empty when `text()` fails),
`json` is the parse when the text is nonempty and parseable, else `null`;
non-2xx yields the HTTP_ERROR failure with `raw = json ?? rawText`; a
falsy `submission_id ?? submissionId` yields NO_SUBMISSION_ID; otherwise
the id is returned through `Number(...)`. -/
def lcSubmit (o : FetchOutcome) : Except String SubmitResult :=
  match o with
  | .netError e => .error e
  | .response resp =>
      let rawText := resp.bodyText
      let json : JsVal := parsedBody resp
      if respOk resp.status = false then
        .ok { ok := false, status := resp.status, error := some "HTTP_ERROR",
              raw := some (json.coalesce (.vStr rawText)), submissionId := none }
      else
        let submissionId := (json.optChain "submission_id").coalesce (json.optChain "submissionId")
        if submissionId.truthy = false then
          .ok { ok := false, status := resp.status, error := some "NO_SUBMISSION_ID",
                raw := some (json.coalesce (.vStr rawText)), submissionId := none }
        else
          .ok { ok := true, status := resp.status, error := none, raw := none,
                submissionId := some submissionId.toNumber }

/-- Result object of `lcSubmissionCheck`: `{ ok, status, error?, raw?, data? }`. -/
structure CheckResult where
  ok : Bool
  status : Nat
  error : Option String
  raw : Option JsVal
  data : Option JsVal
  deriving Repr

/-- Embedding of `lcSubmissionCheck` (source lines 108-135) from the point
the response arrives: body handling as in `lcSubmit`; non-2xx yields the
HTTP_ERROR failure with `raw = json ?? rawText`; otherwise the parsed body
is passed through unchanged as `data`. -/
def lcSubmissionCheck (o : FetchOutcome) : Except String CheckResult :=
  match o with
  | .netError e => .error e
  | .response resp =>
      let rawText := resp.bodyText
      let json : JsVal := parsedBody resp
      if respOk resp.status = false then
        .ok { ok := false, status := resp.status, error := some "HTTP_ERROR",
              raw := some (json.coalesce (.vStr rawText)), data := none }
      else
        .ok { ok := true, status := resp.status, error := none, raw := none,
              data := some json }

/-! ### Cookie parsing and user normalization -/

/-- Case-insensitive character comparison (the `i` flag of the regex in
`extractCookieValue`). -/
def charIEq (a b : Char) : Bool := a.toLower == b.toLower

/-- Match `name=` case-insensitively at the head of `cs`, then capture the
maximal nonempty run of characters other than `;` (the group `([^;]+)`).
Returns the capture, or `none` when there is no match here. -/
def matchPair : List Char → List Char → Option (List Char)
  | cs, [] =>
      match cs with
      | '=' :: rest =>
          let cap := rest.takeWhile (fun c => c ≠ ';')
          if cap.isEmpty then none else some cap
      | _ => none
  | [], _ :: _ => none
  | c :: cs, n :: ns => if charIEq c n then matchPair cs ns else none

/-- Scan left to right for a match of `;\s*name=([^;]+)`.  Because the
names searched for start with a letter, the greedy whitespace skip after
`;` is equivalent to the regex `\s*`. -/
def scanPair : List Char → List Char → Option (List Char)
  | [], _ => none
  | c :: cs, name =>
      if c = ';' then
        match matchPair (cs.dropWhile Char.isWhitespace) name with
        | some v => some v
        | none => scanPair cs name
      else scanPair cs name

/-- Embedding of `extractCookieValue(cookieStr, name)` (source lines
17-21): the regex `(?:^|;\s*)name=([^;]+)` with the `i` flag, returning
the first capture group of the leftmost match, or `null`.  The leftmost
match is either anchored at the start of the string or introduced by the
earliest matching `;`. -/
def extractCookieValue (cookieStr name : String) : Option String :=
  match matchPair cookieStr.data name.data with
  | some v => some (String.mk v)
  | none => (scanPair cookieStr.data name.data).map String.mk

/-- Embedding of `isCnDomain` (source lines 163-165). -/
def isCnDomain (domain : String) : Bool :=
  endsWithStr (lowerStr domain) "leetcode.cn"

/-- Embedding of `normalizeUser(domain, userStatus)` (source lines
167-195).  A falsy `userStatus` yields `null`.  `is_verified` keeps a
boolean as is, maps nullish to `null`, and otherwise coerces by
truthiness; `is_signed_in` and `is_premium` are coerced with
`Boolean(...)`; the remaining fields default nullish values to `null` via
`?? null`.  The secondary (cn) variant carries `slug`/`real_name` and pins
`id`/`session_id` to `null`. -/
def normalizeUser (domain : String) (userStatus : JsVal) : Option UserProfile :=
  if userStatus.truthy = false then none
  else
    let isVerifiedRaw := userStatus.getField "is_verified"
    let isVerified : Option Bool :=
      match isVerifiedRaw with
      | .vBool b => some b
      | v => if v.nullish then none else some v.truthy
    if isCnDomain domain then
      some { id := .vNull,
             name := (userStatus.getField "name").coalesce .vNull,
             is_signed_in := (userStatus.getField "is_signed_in").truthy,
             is_premium := (userStatus.getField "is_premium").truthy,
             is_verified := isVerified,
             session_id := .vNull,
             slug := some ((userStatus.getField "slug").coalesce .vNull),
             real_name := some ((userStatus.getField "real_name").coalesce .vNull) }
    else
      some { id := (userStatus.getField "id").coalesce .vNull,
             name := (userStatus.getField "name").coalesce .vNull,
             is_signed_in := (userStatus.getField "is_signed_in").truthy,
             is_premium := (userStatus.getField "is_premium").truthy,
             is_verified := isVerified,
             session_id := (userStatus.getField "session_id").coalesce .vNull,
             slug := none, real_name := none }

/-! ### The cookie sign-in handler -/

/-- Request body of `POST /api/auth/cookie`; `none` models an absent
field (the handler coerces with `String(x || fallback)`, and the bodies
the client sends carry strings, so optional strings suffice). -/
structure AuthBody where
  cookie : Option String
  domain : Option String

/-- The JSON replies the sign-in handler can produce. -/
inductive AuthReply where
  | cookieRequired
  | cookieInvalid
  | authFailed (detail : GqlResult)
  | notSignedIn (user : Option UserProfile)
  | success (user : UserProfile) (emailNotVerified : Bool)

/-- HTTP status attached to each sign-in reply in the source. -/
def AuthReply.status : AuthReply → Nat
  | .cookieRequired => 400
  | .cookieInvalid => 400
  | .authFailed _ => 401
  | .notSignedIn _ => 401
  | .success _ _ => 200

/-- The accept-language preference the server stores for new sessions
(source line 366) and on Chinese list requests (source line 423). -/
def zhAcceptLanguage : String := "zh-CN,zh;q=0.9,en;q=0.8"

/-- The `cookie` local of the sign-in handler:
`String(req.body?.cookie || '').trim()` (source line 343). -/
def authCookieOf (body : AuthBody) : String :=
  trimStr (body.cookie.getD "")

/-- The `domain` local of the sign-in handler:
`String(req.body?.domain || 'leetcode.com').trim() || 'leetcode.com'`
(source line 344). -/
def authDomainOf (body : AuthBody) : String :=
  let d0 :=
    match body.domain with
    | some d => if d = "" then "leetcode.com" else d
    | none => "leetcode.com"
  let d := trimStr d0
  if d = "" then "leetcode.com" else d

/-- Observable outcome of one `POST /api/auth/cookie` request: the reply
(or an escaped exception), the session record persisted by `setSession`
if any, and whether an upstream call was issued. -/
structure AuthOutcome where
  reply : Except String AuthReply
  stored : Option Session
  upstreamCalled : Bool

/-- Embedding of the `POST /api/auth/cookie` handler (source lines
342-391).  `upstream` is the outcome of the single user-status GraphQL
query (whose query text depends on the domain but whose handling does
not). -/
def authCookieHandler (body : AuthBody) (upstream : FetchOutcome) : AuthOutcome :=
  let cookie := authCookieOf body
  let domain := authDomainOf body
  if cookie = "" then { reply := .ok .cookieRequired, stored := none, upstreamCalled := false }
  else
    match extractCookieValue cookie "csrftoken",
          extractCookieValue cookie "LEETCODE_SESSION" with
    | some csrf, some _ =>
        let session : Session :=
          { domain := some domain, cookie := some cookie, csrftoken := some csrf,
            user := none, acceptLanguage := some zhAcceptLanguage }
        match lcGraphql upstream with
        | .error e => { reply := .error e, stored := none, upstreamCalled := true }
        | .ok me =>
            if me.ok = false then
              { reply := .ok (.authFailed me), stored := none, upstreamCalled := true }
            else
              let userStatus := (me.data.getD .vUndefined).optChain "userStatus"
              match normalizeUser domain userStatus with
              | none =>
                  { reply := .ok (.notSignedIn none), stored := none, upstreamCalled := true }
              | some u =>
                  if u.is_signed_in = false then
                    { reply := .ok (.notSignedIn (some u)), stored := none,
                      upstreamCalled := true }
                  else
                    { reply := .ok (.success u (u.is_verified == some false)),
                      stored := some { session with user := some u },
                      upstreamCalled := true }
    | _, _ =>
        { reply := .ok .cookieInvalid, stored := none, upstreamCalled := false }

/-! ### Problem list items -/

namespace JsNum

/-- `x > 0` on JS numbers (false for NaN). -/
def gtZero : JsNum → Bool
  | .nan => false
  | .num q => 0 < q

/-- JS multiplication (NaN absorbs). -/
def mul : JsNum → JsNum → JsNum
  | .num a, .num b => .num (a * b)
  | _, _ => .nan

/-- JS division on the cases the source reaches: the only division is
guarded by a positive denominator, so the zero-denominator case (an
infinity in JS, absent from this model) is mapped to NaN. -/
def div : JsNum → JsNum → JsNum
  | .num a, .num b => if b = 0 then .nan else .num (a / b)
  | _, _ => .nan

end JsNum

/-- One row of the problem list returned by `GET /api/problems`.  `acRate`
is `none` for JSON `null`; `frontendId` is the `String(...)` coercion the
source applies. -/
structure ProblemListItem where
  id : JsVal
  frontendId : String
  title : JsVal
  titleZh : JsVal
  titleSlug : JsVal
  paidOnly : Bool
  difficulty : JsVal
  status : JsVal
  acRate : Option JsNum
  deriving Repr

/-- The `acRate` expression of the GraphQL mapping (source line 449):
keep a number, map nullish to `null`, coerce anything else with
`Number(...)`. -/
def gqlAcRate (v : JsVal) : Option JsNum :=
  match v with
  | .vNum n => some n
  | v => if v.nullish then none else some v.toNumber

/-- Embedding of the GraphQL list mapping (source lines 438-451), one
question node to one item. -/
def gqlItemOf (x : JsVal) : ProblemListItem :=
  let idNum := (x.getField "id").toNumber
  { id := .vNum (.num (match idNum with | .num q => q | .nan => 0)),
    frontendId := JsVal.toStringJs ((x.getField "frontendId").coalesce (.vStr "")),
    title := (x.getField "title").coalesce (.vStr ""),
    titleZh := (x.getField "titleZh").coalesce .vNull,
    titleSlug := (x.getField "titleSlug").coalesce (.vStr ""),
    paidOnly := (x.getField "paidOnly").truthy,
    difficulty := (x.getField "difficulty").jsOr (.vStr "Unknown"),
    status := (x.getField "status").jsOr .vNull,
    acRate := gqlAcRate (x.getField "acRate") }

/-- `difficultyMap[level]` (source lines 503-507): an object with keys 1,
2, 3; JS bracket lookup coerces the index to a string key. -/
def difficultyMapIdx (level : JsVal) : JsVal :=
  let key := JsVal.toStringJs level
  if key = "1" then .vStr "Easy"
  else if key = "2" then .vStr "Medium"
  else if key = "3" then .vStr "Hard"
  else .vUndefined

/-- Embedding of the REST list mapping (source lines 509-527), one
`stat_status_pairs` entry to one item.  The acceptance rate is
`(total_acs / total_submitted) * 100` when the submitted count is
positive, else `null`; `titleZh` is always `null` on this path. -/
def restItemOf (p : JsVal) : ProblemListItem :=
  let stat := (p.getField "stat").jsOr (.vObj [])
  let level := (p.getField "difficulty").optChain "level"
  let totalAcs := ((stat.getField "total_acs").jsOr (.vNum (.num 0))).toNumber
  let totalSubmitted := ((stat.getField "total_submitted").jsOr (.vNum (.num 0))).toNumber
  let acRate : Option JsNum :=
    if totalSubmitted.gtZero then some ((totalAcs.div totalSubmitted).mul (.num 100))
    else none
  { id := stat.getField "question_id",
    frontendId := JsVal.toStringJs ((stat.getField "frontend_question_id").coalesce (.vStr "")),
    title := stat.getField "question__title",
    titleZh := .vNull,
    titleSlug := stat.getField "question__title_slug",
    paidOnly := (p.getField "paid_only").truthy,
    difficulty := (difficultyMapIdx level).jsOr (.vStr "Unknown"),
    status := (p.getField "status").jsOr .vNull,
    acRate := acRate }

/-- The GraphQL list mapping over a whole `questions` array. -/
def gqlItems (questions : List JsVal) : List ProblemListItem :=
  questions.map gqlItemOf

/-- The REST mapping over the whole `stat_status_pairs` array. -/
def restItems (pairs : List JsVal) : List ProblemListItem :=
  pairs.map restItemOf

/-! ### Secondary-domain localization fill-in -/

/-- Embedding of the `cnMap` construction (source lines 472-476): keep
the cn questions with a truthy `titleSlug`, keyed by `String(titleSlug)`
with value `titleZh ?? null`.  Upstream slugs are unique, so first-match
lookup below agrees with the JS `Map`. -/
def cnMapOf (cnQuestions : List JsVal) : List (String × JsVal) :=
  (cnQuestions.filter (fun x => (x.optChain "titleSlug").truthy)).map
    (fun x => (JsVal.toStringJs (x.getField "titleSlug"),
               (x.getField "titleZh").coalesce .vNull))

/-- `cnMap.get(key)` with a `JsVal` key: JS `Map` keys are compared with
strict equality, and every key stored above is a string, so only a string
key can hit. -/
def cnMapGet (m : List (String × JsVal)) (key : JsVal) : JsVal :=
  match key with
  | .vStr s =>
      match m.find? (fun p => p.1 == s) with
      | some p => p.2
      | none => .vUndefined
  | _ => .vUndefined

/-- Embedding of the per-item fill-in (source lines 478-482): keep an
item whose `titleZh` is truthy; otherwise look its slug up in the cn map
and fill `titleZh` only when the looked-up value is truthy. -/
def fillItem (m : List (String × JsVal)) (it : ProblemListItem) : ProblemListItem :=
  if it.titleZh.truthy then it
  else
    let zh := cnMapGet m it.titleSlug
    if zh.truthy then { it with titleZh := zh } else it

/-- The fill-in over the whole item list (`items.map(...)`). -/
def fillItems (m : List (String × JsVal)) (items : List ProblemListItem) :
    List ProblemListItem :=
  items.map (fillItem m)

/-- `needCnFill` (source lines 454-456): acting session on the primary
(com) domain and some item lacking a truthy `titleZh` while having a
truthy `titleSlug`. -/
def needCnFill (domain : String) (items : List ProblemListItem) : Bool :=
  endsWithStr (lowerStr domain) "leetcode.com" &&
    items.any (fun it => it.titleZh.truthy = false && it.titleSlug.truthy)

/-- The whole list enrichment step (source lines 453-484): when
`needCnFill`, and the secondary-domain catalog query returned a nonempty
array (`cnQuestions` is `none` when it failed or was not an array), build
the cn map and fill each item; otherwise leave the items unchanged. -/
def listEnrich (domain : String) (items : List ProblemListItem)
    (cnQuestions : Option (List JsVal)) : List ProblemListItem :=
  if needCnFill domain items then
    match cnQuestions with
    | some qs => if qs.length ≠ 0 then fillItems (cnMapOf qs) items else items
    | none => items
  else items

/-! ### Problem detail enrichment -/

/-- The fields of the question document consulted or assigned by the
detail enrichment (source lines 555-569); all other fields of the parsed
question object flow through the handler untouched. -/
structure QuestionDoc where
  translated_title : JsVal
  translated_content : JsVal
  title : JsVal
  content : JsVal
  deriving Repr

/-- Embedding of the detail enrichment (source lines 555-569): when the
session is on the primary (com) domain and both localized fields are
falsy, and the secondary-domain lookup produced a truthy question
(`cnQ = some c`), assign
`translated_title = cn.translated_title || cn.title || translated_title`
and likewise for the content; otherwise leave the document unchanged. -/
def detailEnrich (isCom : Bool) (q : QuestionDoc) (cnQ : Option QuestionDoc) :
    QuestionDoc :=
  let missingZh := q.translated_title.truthy = false && q.translated_content.truthy = false
  if isCom && missingZh then
    match cnQ with
    | some c =>
        { q with
          translated_title := (c.translated_title.jsOr c.title).jsOr q.translated_title,
          translated_content := (c.translated_content.jsOr c.content).jsOr q.translated_content }
    | none => q
  else q

/-! ### Session store and the stateful endpoints -/

/-- The in-memory `sessions` map (source line 15), session id to record. -/
abbrev Store := List (String × Session)

/-- `sessions.get(sid)`. -/
def storeGet (store : Store) (sid : String) : Option Session :=
  (store.find? (fun p => p.1 == sid)).map (fun p => p.2)

/-- `sessions.set(sid, record)` (here: the in-place mutation of a record
already held by the map updates its entry). -/
def storeSet (store : Store) (sid : String) (s : Session) : Store :=
  if store.any (fun p => p.1 == sid) then
    store.map (fun p => if p.1 == sid then (p.1, s) else p)
  else
    store ++ [(sid, s)]

/-- `getSession(req)` (source lines 23-27): a missing or empty `lc_sid`
cookie, or an unknown id, yields no session. -/
def getSessionOf (store : Store) (sid : Option String) : Option Session :=
  match sid with
  | none => none
  | some s => if s = "" then none else storeGet store s

/-- Replies of `GET /api/submission/:id/check` (source lines 603-617). -/
inductive CheckReply where
  | notAuthenticated
  | invalidSubmissionId
  | upstreamError (detail : CheckResult)
  | submission (data : JsVal)

/-- HTTP status of each check reply in the source. -/
def CheckReply.status : CheckReply → Nat
  | .notAuthenticated => 401
  | .invalidSubmissionId => 400
  | .upstreamError _ => 502
  | .submission _ => 200

/-- Embedding of the `GET /api/submission/:id/check` handler (source
lines 603-617): require a session, validate the id
(`Number.isFinite(id) && id > 0`), call `lcSubmissionCheck`, surface its
failure as a 502 and its success as `{ submission: check.data }`.  The
handler never writes the store; the returned store is the input store. -/
def checkEndpoint (store : Store) (sid : Option String) (idParam : String)
    (upstream : FetchOutcome) : Except String CheckReply × Store :=
  match getSessionOf store sid with
  | none => (.ok .notAuthenticated, store)
  | some _ =>
      let id := JsVal.toNumber (.vStr idParam)
      if (match id with | .nan => false | .num q => 0 < q) = false then
        (.ok .invalidSubmissionId, store)
      else
        match lcSubmissionCheck upstream with
        | .error e => (.error e, store)
        | .ok check =>
            if check.ok = false then (.ok (.upstreamError check), store)
            else (.ok (.submission (check.data.getD .vNull)), store)

/-- `lang` normalization of `GET /api/problems`
(`String(req.query.lang || '').trim().toLowerCase()`, source line 420). -/
def normalizeLang (langParam : Option String) : String :=
  lowerStr (trimStr (langParam.getD ""))

/-- The Chinese-language test of source lines 422 and 427. -/
def isZhLang (lang : String) : Bool :=
  lang == "zh" || lang == "zh-cn" || lang == "cn"

/-- Embedding of the session-mutation prefix of the `GET /api/problems`
handler (source lines 414-424): when a session is found and the
normalized `lang` is Chinese, the handler assigns
`session.acceptLanguage = zhAcceptLanguage` in place, which updates the
record held by the `sessions` map; otherwise the store is untouched. -/
def problemsLangStep (store : Store) (sid : Option String)
    (langParam : Option String) : Store :=
  match sid with
  | none => store
  | some s =>
      if s = "" then store
      else
        match storeGet store s with
        | none => store
        | some session =>
            if isZhLang (normalizeLang langParam) then
              storeSet store s { session with acceptLanguage := some zhAcceptLanguage }
            else store

/-! ## Claim C1: the two-query GraphQL fallback -/

/-- C1 counterexample: with both query shapes failing (HTTP 500 for the
first, HTTP 404 for the second), the fallback returns the FIRST failure,
not the second one as the claim states. -/
theorem c1_both_fail_counterexample :
    (lcProblemsetQuestionList
        (.response { status := 500, bodyText := "A", bodyJson := some (.vObj []) })
        (.response { status := 404, bodyText := "B", bodyJson := some (.vObj []) })).1 =
      lcGraphql (.response { status := 500, bodyText := "A", bodyJson := some (.vObj []) }) ∧
    lcGraphql (.response { status := 500, bodyText := "A", bodyJson := some (.vObj []) }) =
      Except.ok { ok := false, status := 500, error := some "HTTP_ERROR",
                  raw := some (.vObj []), data := none } ∧
    lcGraphql (.response { status := 404, bodyText := "B", bodyJson := some (.vObj []) }) =
      Except.ok { ok := false, status := 404, error := some "HTTP_ERROR",
                  raw := some (.vObj []), data := none } ∧
    (lcProblemsetQuestionList
        (.response { status := 500, bodyText := "A", bodyJson := some (.vObj []) })
        (.response { status := 404, bodyText := "B", bodyJson := some (.vObj []) })).1 ≠
      lcGraphql (.response { status := 404, bodyText := "B", bodyJson := some (.vObj []) }) := by
  refine ⟨rfl, rfl, rfl, ?_⟩
  intro h
  simp only [lcProblemsetQuestionList, queryWithFallback, lcGraphql, respOk] at h
  simp at h

/-- C1 (amended): if the first query succeeds, both fallback helpers
return its result without invoking the second shape; if the first fails
structurally and the second succeeds, the result is the second result; if
BOTH fail structurally, the result is the first failure (the source
returns `first`, not `second`). -/
theorem c1_two_query_fallback (oA oB : FetchOutcome) :
    (∀ r, lcGraphql oA = Except.ok r → r.ok = true →
        lcProblemsetQuestionList oA oB = (Except.ok r, [QueryShape.primaryShape]) ∧
        lcQuestion oA oB = (Except.ok r, [QueryShape.primaryShape])) ∧
    (∀ r s, lcGraphql oA = Except.ok r → r.ok = false →
        lcGraphql oB = Except.ok s → s.ok = true →
        lcProblemsetQuestionList oA oB =
          (Except.ok s, [QueryShape.primaryShape, QueryShape.alternateShape]) ∧
        lcQuestion oA oB =
          (Except.ok s, [QueryShape.primaryShape, QueryShape.alternateShape])) ∧
    (∀ r s, lcGraphql oA = Except.ok r → r.ok = false →
        lcGraphql oB = Except.ok s → s.ok = false →
        lcProblemsetQuestionList oA oB =
          (Except.ok r, [QueryShape.primaryShape, QueryShape.alternateShape]) ∧
        lcQuestion oA oB =
          (Except.ok r, [QueryShape.primaryShape, QueryShape.alternateShape])) := by
  refine ⟨?_, ?_, ?_⟩
  · intro r hA hok
    constructor <;> simp [lcProblemsetQuestionList, lcQuestion, queryWithFallback, hA, hok]
  · intro r s hA hr hB hs
    constructor <;> simp [lcProblemsetQuestionList, lcQuestion, queryWithFallback, hA, hr, hB, hs]
  · intro r s hA hr hB hs
    constructor <;> simp [lcProblemsetQuestionList, lcQuestion, queryWithFallback, hA, hr, hB, hs]

/-- C1 witness: a concrete 200 response with no errors array makes the
first shape succeed, and the fallback returns it having issued only the
primary query. -/
theorem c1_two_query_fallback_witness :
    lcProblemsetQuestionList
        (.response { status := 200, bodyText := "ok",
                     bodyJson := some (.vObj [("data", .vObj [])]) })
        (.netError "unused") =
      (Except.ok { ok := true, status := 200, error := none, raw := none,
                   data := some (.vObj []) },
       [QueryShape.primaryShape]) :=
  ((c1_two_query_fallback
      (.response { status := 200, bodyText := "ok",
                   bodyJson := some (.vObj [("data", .vObj [])]) })
      (.netError "unused")).1 _ rfl rfl).1

/-! ## Claim C7: non-2xx surfaced as data, network errors propagate -/

/-- C7 counterexample: a rejected fetch propagates out of `lcGraphql` as
the raw network error; it is not converted into an
`UPSTREAM_UNREACHABLE` value (that token exists nowhere in the source). -/
theorem c7_net_error_counterexample :
    lcGraphql (.netError "ECONNREFUSED") = .error "ECONNREFUSED" ∧
    lcGraphql (.netError "ECONNREFUSED") ≠ .error "UPSTREAM_UNREACHABLE" := by
  refine ⟨rfl, ?_⟩
  intro h
  rw [lcGraphql] at h
  injection h with h
  exact absurd h (by decide)

/-- C7 (amended): each request helper surfaces a non-2xx upstream
response as an `ok := false` value carrying the status code and raw body
instead of throwing, and a network error propagates to the caller as the
raw thrown error (the helpers install no handler and produce no
`UPSTREAM_UNREACHABLE` value). -/
theorem c7_non2xx_as_data (resp : HttpResponse) (json : JsVal) (e : String)
    (hst : respOk resp.status = false) :
    (resp.bodyJson = some json →
        lcGraphql (.response resp) =
          .ok { ok := false, status := resp.status, error := some "HTTP_ERROR",
                raw := some json, data := none }) ∧
    (resp.bodyJson = none →
        lcGraphql (.response resp) =
          .ok { ok := false, status := resp.status, error := some "INVALID_JSON",
                raw := some (.vStr resp.bodyText), data := none }) ∧
    lcSubmit (.response resp) =
      .ok { ok := false, status := resp.status, error := some "HTTP_ERROR",
            raw := some ((parsedBody resp).coalesce (.vStr resp.bodyText)),
            submissionId := none } ∧
    lcSubmissionCheck (.response resp) =
      .ok { ok := false, status := resp.status, error := some "HTTP_ERROR",
            raw := some ((parsedBody resp).coalesce (.vStr resp.bodyText)),
            data := none } ∧
    lcGraphql (.netError e) = .error e ∧
    lcSubmit (.netError e) = .error e ∧
    lcSubmissionCheck (.netError e) = .error e := by
  refine ⟨?_, ?_, ?_, ?_, rfl, rfl, rfl⟩
  · intro h; simp [lcGraphql, h, hst]
  · intro h; simp [lcGraphql, h, hst]
  · simp [lcSubmit, hst]
  · simp [lcSubmissionCheck, hst]

/-- C7 witness: a concrete 500 response with a parseable JSON body is
surfaced as data by all three helpers, and a concrete network error
propagates unchanged. -/
theorem c7_non2xx_as_data_witness :
    lcSubmit (.response { status := 500, bodyText := "{}", bodyJson := some (.vObj []) }) =
      .ok { ok := false, status := 500, error := some "HTTP_ERROR",
            raw := some (.vObj []), submissionId := none } ∧
    lcGraphql (.netError "boom") = .error "boom" := by
  have h := c7_non2xx_as_data
    { status := 500, bodyText := "{}", bodyJson := some (.vObj []) } (.vObj []) "boom"
    (by decide)
  refine ⟨?_, h.2.2.2.2.1⟩
  have hs := h.2.2.1
  simpa [parsedBody, JsVal.coalesce, JsVal.nullish] using hs

/-! ## Claim C5: acceptance-rate policy -/

/-- C5: on the REST shape a zero or absent submitted count yields a
`null` acceptance rate (never `0`, never NaN); with both counts numeric
and the submitted count positive the rate is `100 * accepted /
submitted`; on the GraphQL shape an upstream number passes through
unchanged and a nullish upstream value yields `null`. -/
theorem c5_acceptance_rate (p x : JsVal) :
    ((((p.getField "stat").jsOr (.vObj [])).getField "total_submitted" = .vUndefined ∨
      ((p.getField "stat").jsOr (.vObj [])).getField "total_submitted" = .vNull ∨
      ((p.getField "stat").jsOr (.vObj [])).getField "total_submitted" = .vNum (.num 0)) →
      (restItemOf p).acRate = none) ∧
    (∀ a s : ℚ,
      ((p.getField "stat").jsOr (.vObj [])).getField "total_acs" = .vNum (.num a) →
      ((p.getField "stat").jsOr (.vObj [])).getField "total_submitted" = .vNum (.num s) →
      0 < s →
      (restItemOf p).acRate = some (.num (100 * a / s))) ∧
    (∀ n : JsNum, x.getField "acRate" = .vNum n → (gqlItemOf x).acRate = some n) ∧
    ((x.getField "acRate").nullish = true → (gqlItemOf x).acRate = none) := by
  refine ⟨?_, ?_, ?_, ?_⟩
  · rintro (h | h | h) <;> simp only [restItemOf] <;> rw [h] <;>
      simp [JsVal.jsOr, JsVal.truthy, JsVal.toNumber, JsNum.gtZero]
  · intro a s hacs hsub hpos
    have hs0 : s ≠ 0 := ne_of_gt hpos
    simp only [restItemOf]
    rw [hacs, hsub]
    by_cases ha0 : a = 0
    · subst ha0
      simp [JsVal.jsOr, JsVal.truthy, JsVal.toNumber, JsNum.gtZero,
            JsNum.div, JsNum.mul, hpos, hs0]
    · simp [JsVal.jsOr, JsVal.truthy, JsVal.toNumber, JsNum.gtZero,
            JsNum.div, JsNum.mul, hpos, hs0, ha0]
      ring
  · intro n h
    simp [gqlItemOf, gqlAcRate, h]
  · intro h
    cases hv : x.getField "acRate" <;> rw [hv] at h <;>
      simp [JsVal.nullish] at h <;>
      simp [gqlItemOf, gqlAcRate, hv, JsVal.nullish]

/-- C5 witness: 50 accepted of 200 submitted gives a 25 percent rate;
an absent GraphQL `acRate` gives `null`. -/
theorem c5_acceptance_rate_witness :
    (restItemOf (.vObj [("stat", .vObj [("total_acs", .vNum (.num 50)),
        ("total_submitted", .vNum (.num 200))])])).acRate = some (.num 25) ∧
    (gqlItemOf (.vObj [])).acRate = none := by
  have h := c5_acceptance_rate
    (.vObj [("stat", .vObj [("total_acs", .vNum (.num 50)),
        ("total_submitted", .vNum (.num 200))])])
    (.vObj [])
  refine ⟨?_, h.2.2.2 rfl⟩
  have h2 := h.2.1 50 200 rfl rfl (by norm_num)
  rw [h2]
  norm_num

/-! ## Claim C6: localization fill-in is idempotent and non-destructive -/

theorem fillItem_preserves_populated (m : List (String × JsVal))
    (it : ProblemListItem) (h : it.titleZh.truthy = true) :
    fillItem m it = it := by
  simp [fillItem, h]

theorem fillItem_idem (m : List (String × JsVal)) (it : ProblemListItem) :
    fillItem m (fillItem m it) = fillItem m it := by
  by_cases h : it.titleZh.truthy <;>
    by_cases hz : (cnMapGet m it.titleSlug).truthy <;>
      simp [fillItem, h, hz]

theorem fillItems_idem (m : List (String × JsVal)) (items : List ProblemListItem) :
    fillItems m (fillItems m items) = fillItems m items := by
  simp only [fillItems, List.map_map]
  exact List.map_congr_left fun it _ => fillItem_idem m it

theorem listEnrich_idem (d : String) (items : List ProblemListItem)
    (cn : Option (List JsVal)) :
    listEnrich d (listEnrich d items cn) cn = listEnrich d items cn := by
  by_cases hg : needCnFill d items
  · cases cn with
    | none => simp [listEnrich, hg]
    | some qs =>
        by_cases hq : qs.length = 0
        · simp [listEnrich, hg, hq]
        · simp only [listEnrich, hg, hq, if_true, ne_eq, not_false_eq_true, if_pos]
          by_cases hg2 : needCnFill d (fillItems (cnMapOf qs) items)
          · simp only [hg2, if_true, hq, ne_eq, not_false_eq_true, if_pos]
            exact fillItems_idem _ _
          · simp [hg2]
  · simp [listEnrich, hg]

theorem detailEnrich_preserves_title (b : Bool) (q : QuestionDoc)
    (c : Option QuestionDoc) (h : q.translated_title.truthy = true) :
    detailEnrich b q c = q := by
  simp [detailEnrich, h]

theorem detailEnrich_preserves_content (b : Bool) (q : QuestionDoc)
    (c : Option QuestionDoc) (h : q.translated_content.truthy = true) :
    detailEnrich b q c = q := by
  simp [detailEnrich, h]

theorem jsOr_eq_left {a : JsVal} (b : JsVal) (h : a.truthy = true) :
    a.jsOr b = a := by
  simp [JsVal.jsOr, h]

theorem jsOr_eq_right {a : JsVal} (b : JsVal) (h : a.truthy = false) :
    a.jsOr b = b := by
  simp [JsVal.jsOr, h]

theorem detailEnrich_fills (b : Bool) (q : QuestionDoc) (cq : QuestionDoc)
    (hb : b = true) (ht : q.translated_title.truthy = false)
    (hc : q.translated_content.truthy = false) :
    detailEnrich b q (some cq) =
      { q with
        translated_title :=
          (cq.translated_title.jsOr cq.title).jsOr q.translated_title,
        translated_content :=
          (cq.translated_content.jsOr cq.content).jsOr q.translated_content } := by
  simp [detailEnrich, hb, ht, hc]

theorem detailEnrich_idem (b : Bool) (q : QuestionDoc) (c : Option QuestionDoc) :
    detailEnrich b (detailEnrich b q c) c = detailEnrich b q c := by
  by_cases hb : b = true
  case neg => simp [detailEnrich, Bool.eq_false_iff.mpr hb]
  case pos =>
  by_cases ht : q.translated_title.truthy = true
  · rw [detailEnrich_preserves_title b q c ht, detailEnrich_preserves_title b q c ht]
  · replace ht := Bool.eq_false_iff.mpr ht
    by_cases hc : q.translated_content.truthy = true
    · rw [detailEnrich_preserves_content b q c hc, detailEnrich_preserves_content b q c hc]
    · replace hc := Bool.eq_false_iff.mpr hc
      cases c with
      | none =>
          have h1 : detailEnrich b q none = q := by simp [detailEnrich]
          rw [h1, h1]
      | some cq =>
          have hq1 := detailEnrich_fills b q cq hb ht hc
          by_cases htt : (cq.translated_title.jsOr cq.title).truthy = true
          · rw [hq1]
            exact detailEnrich_preserves_title _ _ _
              (by rw [jsOr_eq_left _ htt]; exact htt)
          · replace htt := Bool.eq_false_iff.mpr htt
            have e1 : (cq.translated_title.jsOr cq.title).jsOr q.translated_title =
                q.translated_title := jsOr_eq_right _ htt
            by_cases htc : (cq.translated_content.jsOr cq.content).truthy = true
            · rw [hq1]
              exact detailEnrich_preserves_content _ _ _
                (by rw [jsOr_eq_left _ htc]; exact htc)
            · replace htc := Bool.eq_false_iff.mpr htc
              have e2 : (cq.translated_content.jsOr cq.content).jsOr
                  q.translated_content = q.translated_content := jsOr_eq_right _ htc
              have hqq : detailEnrich b q (some cq) = q := by rw [hq1, e1, e2]
              rw [hqq, hqq]

/-- C6: the secondary-domain localization fill-in never changes an
already-populated localized field and is idempotent, both on list items
(fill by slug lookup) and on the problem-detail document; the whole list
enrichment step is idempotent as well. -/
theorem c6_localization_fill_idempotent :
    (∀ m it, it.titleZh.truthy = true → fillItem m it = it) ∧
    (∀ m it, fillItem m (fillItem m it) = fillItem m it) ∧
    (∀ d items cn, listEnrich d (listEnrich d items cn) cn = listEnrich d items cn) ∧
    (∀ b q c, q.translated_title.truthy = true → detailEnrich b q c = q) ∧
    (∀ b q c, q.translated_content.truthy = true → detailEnrich b q c = q) ∧
    (∀ b q c, detailEnrich b (detailEnrich b q c) c = detailEnrich b q c) :=
  ⟨fillItem_preserves_populated, fillItem_idem, listEnrich_idem,
   detailEnrich_preserves_title, detailEnrich_preserves_content, detailEnrich_idem⟩

/-- C6 witness: a concrete item with a populated localized title is left
unchanged by the fill-in, and a concrete detail document with populated
localized content is left unchanged by the enrichment. -/
theorem c6_localization_fill_idempotent_witness :
    fillItem [("two-sum", .vStr "cn-title")]
      { id := .vNum (.num 1), frontendId := "1", title := .vStr "Two Sum",
        titleZh := .vStr "已有", titleSlug := .vStr "two-sum", paidOnly := false,
        difficulty := .vStr "Easy", status := .vNull, acRate := none } =
      { id := .vNum (.num 1), frontendId := "1", title := .vStr "Two Sum",
        titleZh := .vStr "已有", titleSlug := .vStr "two-sum", paidOnly := false,
        difficulty := .vStr "Easy", status := .vNull, acRate := none } ∧
    detailEnrich true
      { translated_title := .vNull, translated_content := .vStr "内容",
        title := .vStr "t", content := .vStr "c" }
      (some { translated_title := .vStr "x", translated_content := .vStr "y",
              title := .vStr "t2", content := .vStr "c2" }) =
      { translated_title := .vNull, translated_content := .vStr "内容",
        title := .vStr "t", content := .vStr "c" } :=
  ⟨c6_localization_fill_idempotent.1 _ _ (by decide),
   c6_localization_fill_idempotent.2.2.2.2.1 _ _ _ (by decide)⟩

/-! ## Association-list lemmas shared by the header and store models -/

theorem assocFind_update {α : Type} (l : List (String × α)) (k : String) (v : α)
    (h : l.any (fun p => p.1 == k) = true) :
    ((l.map (fun p => if p.1 == k then (p.1, v) else p)).find? (fun p => p.1 == k)).map
      (fun p => p.2) = some v := by
  induction l with
  | nil => simp at h
  | cons a as ih =>
      by_cases hk : (a.1 == k) = true
      · rw [List.map_cons, if_pos hk, List.find?_cons]
        simp [hk]
      · have hk' := eq_false_of_ne_true hk
        rw [List.map_cons, if_neg hk, List.find?_cons]
        simp only [hk']
        exact ih (by simpa [List.any_cons, hk'] using h)

theorem assocFind_append {α : Type} (l : List (String × α)) (k : String) (v : α)
    (h : l.any (fun p => p.1 == k) = false) :
    (((l ++ [(k, v)]).find? (fun p => p.1 == k)).map (fun p => p.2)) = some v := by
  induction l with
  | nil =>
      rw [List.nil_append, List.find?_cons]
      simp
  | cons a as ih =>
      simp only [List.any_cons, Bool.or_eq_false_iff] at h
      rw [List.cons_append, List.find?_cons]
      simp only [h.1]
      exact ih h.2

theorem assocFind_update_ne {α : Type} (l : List (String × α)) (k k' : String) (v : α)
    (h : k' ≠ k) :
    (l.map (fun p => if p.1 == k then (p.1, v) else p)).find? (fun p => p.1 == k') =
      l.find? (fun p => p.1 == k') := by
  induction l with
  | nil => rfl
  | cons a as ih =>
      by_cases hk : (a.1 == k) = true
      · have ha' : (a.1 == k') = false := by
          have hak : a.1 = k := by simpa using hk
          simp [hak, Ne.symm h]
        rw [List.map_cons, if_pos hk, List.find?_cons, List.find?_cons]
        simp only [ha']
        exact ih
      · by_cases ha : (a.1 == k') = true
        · rw [List.map_cons, if_neg hk, List.find?_cons, List.find?_cons]
          simp [ha]
        · have ha' := eq_false_of_ne_true ha
          rw [List.map_cons, if_neg hk, List.find?_cons, List.find?_cons]
          simp only [ha']
          exact ih

theorem assocAny_update {α : Type} (l : List (String × α)) (k k' : String) (v : α) :
    (l.map (fun p => if p.1 == k then (p.1, v) else p)).any (fun p => p.1 == k') =
      l.any (fun p => p.1 == k') := by
  induction l with
  | nil => rfl
  | cons a as ih =>
      rw [List.map_cons, List.any_cons, List.any_cons, ih]
      by_cases hk : (a.1 == k) = true
      · rw [if_pos hk]
      · rw [if_neg hk]

theorem assocAny_append {α : Type} (l : List (String × α)) (k k' : String) (v : α) :
    (l ++ [(k, v)]).any (fun p => p.1 == k') =
      (l.any (fun p => p.1 == k') || (k == k')) := by
  simp

theorem assocFind_append_ne {α : Type} (l : List (String × α)) (k k' : String) (v : α)
    (h : (k == k') = false) :
    (l ++ [(k, v)]).find? (fun p => p.1 == k') = l.find? (fun p => p.1 == k') := by
  induction l with
  | nil =>
      rw [List.nil_append, List.find?_cons]
      simp [h]
  | cons a as ih =>
      by_cases ha : (a.1 == k') = true
      · rw [List.cons_append, List.find?_cons, List.find?_cons]
        simp [ha]
      · have ha' := eq_false_of_ne_true ha
        rw [List.cons_append, List.find?_cons, List.find?_cons]
        simp only [ha']
        exact ih

/-! ## Header-pipeline lemmas -/

theorem hGet_hSet_same (hs : HeaderList) (n v : String) :
    hGet (hSet hs n v) n = some v := by
  by_cases h : hs.any (fun p => p.1 == lowerStr n) = true
  · simp only [hGet, hSet, h, if_true]
    exact assocFind_update hs (lowerStr n) v h
  · have h' := eq_false_of_ne_true h
    simp only [hGet, hSet, h', Bool.false_eq_true, if_false]
    exact assocFind_append hs (lowerStr n) v h'

theorem hGet_hSet_ne (hs : HeaderList) (n v m : String)
    (h : lowerStr m ≠ lowerStr n) :
    hGet (hSet hs n v) m = hGet hs m := by
  by_cases ha : hs.any (fun p => p.1 == lowerStr n) = true
  · simp only [hGet, hSet, ha, if_true]
    rw [assocFind_update_ne hs (lowerStr n) (lowerStr m) v h]
  · have ha' := eq_false_of_ne_true ha
    simp only [hGet, hSet, ha', Bool.false_eq_true, if_false]
    rw [assocFind_append_ne hs (lowerStr n) (lowerStr m) v]
    simpa using fun hh => h hh.symm

theorem hHas_hSet_ne (hs : HeaderList) (n v m : String)
    (h : lowerStr m ≠ lowerStr n) :
    hHas (hSet hs n v) m = hHas hs m := by
  by_cases ha : hs.any (fun p => p.1 == lowerStr n) = true
  · simp only [hHas, hSet, ha, if_true]
    exact assocAny_update hs (lowerStr n) (lowerStr m) v
  · have ha' := eq_false_of_ne_true ha
    simp only [hHas, hSet, ha', Bool.false_eq_true, if_false]
    rw [assocAny_append hs (lowerStr n) (lowerStr m) v]
    have hne : (lowerStr n == lowerStr m) = false := by
      simpa using fun hh => h hh.symm
    simp [hne]

theorem optStep_hGet (hs : HeaderList) (o : Option String) (n m : String)
    (h : lowerStr m ≠ lowerStr n) :
    hGet (match o with
          | some c => if c = "" then hs else hSet hs n c
          | none => hs) m = hGet hs m := by
  rcases o with _ | c
  · rfl
  · by_cases hc : c = ""
    · simp [hc]
    · simp only [if_neg hc]
      exact hGet_hSet_ne hs n c m h

theorem optStep_hHas (hs : HeaderList) (o : Option String) (n m : String)
    (h : lowerStr m ≠ lowerStr n) :
    hHas (match o with
          | some c => if c = "" then hs else hSet hs n c
          | none => hs) m = hHas hs m := by
  rcases o with _ | c
  · rfl
  · by_cases hc : c = ""
    · simp [hc]
    · simp only [if_neg hc]
      exact hHas_hSet_ne hs n c m h

theorem alStep_hGet (hs : HeaderList) (o : Option String) (m : String)
    (h : lowerStr m ≠ lowerStr "accept-language") :
    hGet (match o with
          | some al =>
              if al ≠ "" ∧ hHas hs "accept-language" = false then
                hSet hs "accept-language" al
              else hs
          | none => hs) m = hGet hs m := by
  rcases o with _ | al
  · rfl
  · by_cases hc : al ≠ "" ∧ hHas hs "accept-language" = false
    · simp only [if_pos hc]
      exact hGet_hSet_ne hs _ al m h
    · simp only [if_neg hc]

theorem alStep_hHas (hs : HeaderList) (o : Option String) (m : String)
    (h : lowerStr m ≠ lowerStr "accept-language") :
    hHas (match o with
          | some al =>
              if al ≠ "" ∧ hHas hs "accept-language" = false then
                hSet hs "accept-language" al
              else hs
          | none => hs) m = hHas hs m := by
  rcases o with _ | al
  · rfl
  · by_cases hc : al ≠ "" ∧ hHas hs "accept-language" = false
    · simp only [if_pos hc]
      exact hHas_hSet_ne hs _ al m h
    · simp only [if_neg hc]

theorem condStep_hGet (hs : HeaderList) (n val m : String)
    (h : lowerStr m ≠ lowerStr n) :
    hGet (if hHas hs n then hs else hSet hs n val) m = hGet hs m := by
  by_cases hh : hHas hs n = true
  · simp [hh]
  · simp only [eq_false_of_ne_true hh, Bool.false_eq_true, if_false]
    exact hGet_hSet_ne hs n val m h

theorem condStep_hHas (hs : HeaderList) (n val m : String)
    (h : lowerStr m ≠ lowerStr n) :
    hHas (if hHas hs n then hs else hSet hs n val) m = hHas hs m := by
  by_cases hh : hHas hs n = true
  · simp [hh]
  · simp only [eq_false_of_ne_true hh, Bool.false_eq_true, if_false]
    exact hHas_hSet_ne hs n val m h

theorem lcFetchHeaders_cookie (s : Session) (init : HeaderList) (c : String)
    (hc : s.cookie = some c) (hne : c ≠ "") :
    hGet (lcFetchHeaders (some s) init) "cookie" = some c := by
  dsimp only [lcFetchHeaders, Option.bind]
  simp only [hc]
  rw [if_neg hne]
  rw [condStep_hGet _ _ _ _ (by decide), condStep_hGet _ _ _ _ (by decide),
      alStep_hGet _ _ _ (by decide), optStep_hGet _ _ _ _ (by decide)]
  exact hGet_hSet_same _ _ _

theorem lcFetchHeaders_csrf (s : Session) (init : HeaderList) (t : String)
    (ht : s.csrftoken = some t) (hne : t ≠ "") :
    hGet (lcFetchHeaders (some s) init) "x-csrftoken" = some t := by
  dsimp only [lcFetchHeaders, Option.bind]
  simp only [ht]
  rw [if_neg hne]
  rw [condStep_hGet _ _ _ _ (by decide), condStep_hGet _ _ _ _ (by decide),
      alStep_hGet _ _ _ (by decide)]
  exact hGet_hSet_same _ _ _

theorem lcFetchHeaders_acceptLanguage (s : Session) (init : HeaderList) (al : String)
    (hal : s.acceptLanguage = some al) (hne : al ≠ "")
    (hinit : hHas (mkHeaders init) "accept-language" = false) :
    hGet (lcFetchHeaders (some s) init) "accept-language" = some al := by
  dsimp only [lcFetchHeaders, Option.bind]
  simp only [hal]
  rw [condStep_hGet _ _ _ _ (by decide), condStep_hGet _ _ _ _ (by decide)]
  rw [optStep_hHas _ _ _ _ (by decide), optStep_hHas _ _ _ _ (by decide), hinit]
  rw [if_pos (show al ≠ "" ∧ (false : Bool) = false from ⟨hne, rfl⟩)]
  exact hGet_hSet_same _ _ _

theorem lcFetchHeaders_referer (session : Option Session) (init : HeaderList)
    (hinit : hHas (mkHeaders init) "referer" = false) :
    hGet (lcFetchHeaders session init) "referer" =
      some ("https://" ++ sessionDomain session ++ "/") := by
  dsimp only [lcFetchHeaders]
  rw [alStep_hHas _ _ _ (by decide), optStep_hHas _ _ _ _ (by decide),
      optStep_hHas _ _ _ _ (by decide), hinit]
  simp only [Bool.false_eq_true, if_false]
  rw [condStep_hGet _ _ _ _ (by decide)]
  exact hGet_hSet_same _ _ _

theorem lcFetchHeaders_origin (session : Option Session) (init : HeaderList)
    (hinit : hHas (mkHeaders init) "origin" = false) :
    hGet (lcFetchHeaders session init) "origin" =
      some ("https://" ++ sessionDomain session) := by
  dsimp only [lcFetchHeaders]
  rw [condStep_hHas _ _ _ _ (by decide), alStep_hHas _ _ _ (by decide),
      optStep_hHas _ _ _ _ (by decide), optStep_hHas _ _ _ _ (by decide), hinit]
  simp only [Bool.false_eq_true, if_false]
  exact hGet_hSet_same _ _ _

/-! ## Claim C8: the upstream request builder -/

/-- C8 counterexample: when the caller-supplied headers already contain
an accept-language entry, the session localization preference is NOT
attached even though it is set — the source guards the header with
`!headers.has('accept-language')`, which the claim omits. -/
theorem c8_accept_language_counterexample :
    hGet (lcFetch
        (some { domain := some "leetcode.com", cookie := none, csrftoken := none,
                user := none, acceptLanguage := some zhAcceptLanguage })
        "/graphql/" [("accept-language", "en-US")]).headers "accept-language" =
      some "en-US" ∧
    "en-US" ≠ zhAcceptLanguage := by
  constructor
  · rfl
  · decide

/-- C8 (amended): the URL is built from the session domain (default
primary) when the path does not start with "http"; cookie and csrf
headers are attached from truthy session fields; the localization header
is attached when set AND not already supplied by the caller; referer and
origin default to the domain when absent from the caller headers. -/
theorem c8_request_builder (session : Option Session) (path : String)
    (init : HeaderList) :
    (startsWithStr path "http" = false →
      (lcFetch session path init).url = "https://" ++ sessionDomain session ++ path) ∧
    sessionDomain none = "leetcode.com" ∧
    (∀ s : Session, s.domain = none ∨ s.domain = some "" →
      sessionDomain (some s) = "leetcode.com") ∧
    (∀ s c, session = some s → s.cookie = some c → c ≠ "" →
      hGet (lcFetch session path init).headers "cookie" = some c) ∧
    (∀ s t, session = some s → s.csrftoken = some t → t ≠ "" →
      hGet (lcFetch session path init).headers "x-csrftoken" = some t) ∧
    (∀ s al, session = some s → s.acceptLanguage = some al → al ≠ "" →
      hHas (mkHeaders init) "accept-language" = false →
      hGet (lcFetch session path init).headers "accept-language" = some al) ∧
    (hHas (mkHeaders init) "referer" = false →
      hGet (lcFetch session path init).headers "referer" =
        some ("https://" ++ sessionDomain session ++ "/")) ∧
    (hHas (mkHeaders init) "origin" = false →
      hGet (lcFetch session path init).headers "origin" =
        some ("https://" ++ sessionDomain session)) := by
  refine ⟨?_, rfl, ?_, ?_, ?_, ?_, ?_, ?_⟩
  · intro hp
    simp [lcFetch, hp]
  · rintro s (h | h) <;> simp [sessionDomain, h]
  · rintro s c rfl hc hne
    exact lcFetchHeaders_cookie s init c hc hne
  · rintro s t rfl ht hne
    exact lcFetchHeaders_csrf s init t ht hne
  · rintro s al rfl hal hne hinit
    exact lcFetchHeaders_acceptLanguage s init al hal hne hinit
  · intro hinit
    exact lcFetchHeaders_referer session init hinit
  · intro hinit
    exact lcFetchHeaders_origin session init hinit

/-- C8 witness: a concrete secondary-domain session with cookie and csrf
set gets both headers attached and the URL built on its domain. -/
theorem c8_request_builder_witness :
    hGet (lcFetch
        (some { domain := some "leetcode.cn", cookie := some "a=b",
                csrftoken := some "t", user := none, acceptLanguage := none })
        "/graphql/" []).headers "cookie" = some "a=b" ∧
    (lcFetch
        (some { domain := some "leetcode.cn", cookie := some "a=b",
                csrftoken := some "t", user := none, acceptLanguage := none })
        "/graphql/" []).url = "https://leetcode.cn/graphql/" := by
  have h := c8_request_builder
    (some { domain := some "leetcode.cn", cookie := some "a=b",
            csrftoken := some "t", user := none, acceptLanguage := none })
    "/graphql/" []
  refine ⟨h.2.2.2.1 _ _ rfl rfl (by decide), ?_⟩
  rw [h.1 (by decide)]
  rfl

theorem storeGet_storeSet_same (st : Store) (k : String) (v : Session) :
    storeGet (storeSet st k v) k = some v := by
  by_cases h : st.any (fun p => p.1 == k) = true
  · simp only [storeGet, storeSet, h, if_true]
    exact assocFind_update st k v h
  · have h' := eq_false_of_ne_true h
    simp only [storeGet, storeSet, h', Bool.false_eq_true, if_false]
    exact assocFind_append st k v h'

/-! ## Claim C9: checkStatus is a stateless passthrough -/

/-- C9: on a 2xx upstream status response with a parseable nonempty
body, `lcSubmissionCheck` returns the parsed payload unchanged (whatever
its `state`, including a terminal SUCCESS), the endpoint replies 200 with
`{ submission: payload }`, and the handler leaves the session store
untouched for every upstream outcome. -/
theorem c9_check_status_passthrough (store : Store) (sid : Option String)
    (s : Session) (idParam : String) (resp : HttpResponse) (j : JsVal)
    (hses : getSessionOf store sid = some s)
    (hid : (match JsVal.toNumber (.vStr idParam) with
            | .nan => false
            | .num q => 0 < q) = true)
    (hok : respOk resp.status = true)
    (hjson : resp.bodyJson = some j)
    (hne : resp.bodyText ≠ "") :
    lcSubmissionCheck (.response resp) =
      .ok { ok := true, status := resp.status, error := none, raw := none,
            data := some j } ∧
    checkEndpoint store sid idParam (.response resp) =
      (.ok (.submission j), store) ∧
    (∀ o : FetchOutcome, (checkEndpoint store sid idParam o).2 = store) := by
  have h1 : lcSubmissionCheck (.response resp) =
      .ok { ok := true, status := resp.status, error := none, raw := none,
            data := some j } := by
    simp [lcSubmissionCheck, parsedBody, hok, hjson, hne]
  refine ⟨h1, ?_, ?_⟩
  · simp [checkEndpoint, hses, hid, h1]
  · intro o
    unfold checkEndpoint
    cases getSessionOf store sid with
    | none => rfl
    | some s' =>
        dsimp only
        split
        · rfl
        · cases lcSubmissionCheck o with
          | error e => rfl
          | ok check =>
              dsimp only
              split
              · rfl
              · rfl

/-- C9 witness: a concrete session, id 123 and a SUCCESS payload pass
through unchanged with the store intact. -/
theorem c9_check_status_passthrough_witness :
    checkEndpoint
        [("sid1", { domain := some "leetcode.com", cookie := some "c",
                    csrftoken := some "t", user := none, acceptLanguage := none })]
        (some "sid1") "123"
        (.response { status := 200, bodyText := "s",
                     bodyJson := some (.vObj [("state", .vStr "SUCCESS")]) }) =
      (.ok (.submission (.vObj [("state", .vStr "SUCCESS")])),
       [("sid1", { domain := some "leetcode.com", cookie := some "c",
                   csrftoken := some "t", user := none, acceptLanguage := none })]) :=
  (c9_check_status_passthrough
      [("sid1", { domain := some "leetcode.com", cookie := some "c",
                  csrftoken := some "t", user := none, acceptLanguage := none })]
      (some "sid1")
      { domain := some "leetcode.com", cookie := some "c",
        csrftoken := some "t", user := none, acceptLanguage := none }
      "123"
      { status := 200, bodyText := "s",
        bodyJson := some (.vObj [("state", .vStr "SUCCESS")]) }
      (.vObj [("state", .vStr "SUCCESS")])
      rfl (by decide) (by decide) rfl (by decide)).2.1

/-! ## Claim C10: the lang query parameter mutates the session in place -/

/-- C10: when the acting session exists and the normalized `lang` is
`zh`, `zh-cn` or `cn`, the problems handler updates the stored session
record with the Chinese accept-language preference, the update is visible
on a subsequent store lookup, and every later `lcFetch` with that session
(and no caller accept-language header) carries the preference; any other
`lang` leaves the store unchanged. -/
theorem c10_lang_mutation (store : Store) (sid : String) (session : Session)
    (langParam : Option String)
    (hsid : sid ≠ "") (hs : storeGet store sid = some session) :
    (isZhLang (normalizeLang langParam) = true →
        problemsLangStep store (some sid) langParam =
          storeSet store sid { session with acceptLanguage := some zhAcceptLanguage } ∧
        storeGet (problemsLangStep store (some sid) langParam) sid =
          some { session with acceptLanguage := some zhAcceptLanguage } ∧
        (∀ path init, hHas (mkHeaders init) "accept-language" = false →
            hGet (lcFetch
                (some { session with acceptLanguage := some zhAcceptLanguage })
                path init).headers "accept-language" = some zhAcceptLanguage)) ∧
    (isZhLang (normalizeLang langParam) = false →
        problemsLangStep store (some sid) langParam = store) := by
  constructor
  · intro hzh
    have hstep : problemsLangStep store (some sid) langParam =
        storeSet store sid { session with acceptLanguage := some zhAcceptLanguage } := by
      simp [problemsLangStep, hsid, hs, hzh]
    refine ⟨hstep, ?_, ?_⟩
    · rw [hstep]
      exact storeGet_storeSet_same store sid _
    · intro path init hinit
      exact lcFetchHeaders_acceptLanguage
        { session with acceptLanguage := some zhAcceptLanguage }
        init zhAcceptLanguage rfl (by decide) hinit
  · intro hzh
    simp [problemsLangStep, hsid, hs, hzh]

/-- C10 witness: `lang=zh` on a concrete store rewrites the stored
record's accept-language preference in place. -/
theorem c10_lang_mutation_witness :
    problemsLangStep
        [("s1", { domain := some "leetcode.com", cookie := some "c",
                  csrftoken := some "t", user := none, acceptLanguage := none })]
        (some "s1") (some "zh") =
      [("s1", { domain := some "leetcode.com", cookie := some "c",
                csrftoken := some "t", user := none,
                acceptLanguage := some zhAcceptLanguage })] := by
  have h := (c10_lang_mutation
      [("s1", { domain := some "leetcode.com", cookie := some "c",
                csrftoken := some "t", user := none, acceptLanguage := none })]
      "s1"
      { domain := some "leetcode.com", cookie := some "c",
        csrftoken := some "t", user := none, acceptLanguage := none }
      (some "zh") (by decide) rfl).1 (by decide)
  rw [h.1]
  rfl

/-! ## Claim C2: missing cookie tokens fail fast with COOKIE_INVALID -/

/-- C2 counterexample: an empty cookie text lacks both required
tokens, yet the handler replies 400 COOKIE_REQUIRED, not COOKIE_INVALID
(the empty-cookie check runs first); no upstream call is attempted. -/
theorem c2_empty_cookie_counterexample :
    extractCookieValue "" "csrftoken" = none ∧
    extractCookieValue "" "LEETCODE_SESSION" = none ∧
    (authCookieHandler { cookie := some "", domain := none }
        (.netError "down")).reply = .ok .cookieRequired ∧
    AuthReply.cookieRequired ≠ AuthReply.cookieInvalid ∧
    AuthReply.cookieRequired.status = 400 ∧
    (authCookieHandler { cookie := some "", domain := none }
        (.netError "down")).upstreamCalled = false := by
  refine ⟨rfl, rfl, rfl, ?_, rfl, rfl⟩
  exact fun h => AuthReply.noConfusion h

/-- C2 (amended): for every request body whose trimmed cookie text is
nonempty but lacks a `csrftoken` or a `LEETCODE_SESSION` pair, the
sign-in handler replies 400 COOKIE_INVALID, persists nothing, and issues
no upstream call (an empty cookie text instead yields COOKIE_REQUIRED). -/
theorem c2_cookie_invalid (body : AuthBody) (up : FetchOutcome)
    (hne : authCookieOf body ≠ "")
    (hmiss : extractCookieValue (authCookieOf body) "csrftoken" = none ∨
             extractCookieValue (authCookieOf body) "LEETCODE_SESSION" = none) :
    (authCookieHandler body up).reply = .ok .cookieInvalid ∧
    AuthReply.cookieInvalid.status = 400 ∧
    (authCookieHandler body up).stored = none ∧
    (authCookieHandler body up).upstreamCalled = false := by
  have hmain : authCookieHandler body up =
      { reply := .ok .cookieInvalid, stored := none, upstreamCalled := false } := by
    simp only [authCookieHandler]
    rw [if_neg hne]
    rcases hmiss with h | h
    · rw [h]
    · cases h1 : extractCookieValue (authCookieOf body) "csrftoken" <;> rw [h]
  exact ⟨by rw [hmain], rfl, by rw [hmain], by rw [hmain]⟩

/-- C2 witness: a nonempty cookie carrying only `csrftoken` is rejected
as COOKIE_INVALID without persisting or calling upstream. -/
theorem c2_cookie_invalid_witness :
    (authCookieHandler { cookie := some "csrftoken=abc", domain := none }
        (.netError "down")).reply = .ok .cookieInvalid ∧
    (authCookieHandler { cookie := some "csrftoken=abc", domain := none }
        (.netError "down")).upstreamCalled = false := by
  have h := c2_cookie_invalid { cookie := some "csrftoken=abc", domain := none }
    (.netError "down") (by decide) (Or.inr (by decide))
  exact ⟨h.1, h.2.2.2⟩

/-! ## Claim C3: NOT_SIGNED_IN still carries the partial profile -/

/-- C3: when the cookie carries both tokens, the user-status query
succeeds (2xx, parseable body, no errors array), and the normalized
profile is absent or not signed in, the handler replies 401
NOT_SIGNED_IN with the partial normalized profile in the body, and no
session record is persisted. -/
theorem c3_not_signed_in (body : AuthBody) (resp : HttpResponse) (json : JsVal)
    (cs ls : String)
    (hcs : extractCookieValue (authCookieOf body) "csrftoken" = some cs)
    (hls : extractCookieValue (authCookieOf body) "LEETCODE_SESSION" = some ls)
    (hok : respOk resp.status = true)
    (hjson : resp.bodyJson = some json)
    (herr : (if (json.getField "errors").nullish then JsVal.vUndefined
             else (json.getField "errors").lengthOf).truthy = false)
    (hns : (match normalizeUser (authDomainOf body)
              ((json.getField "data").optChain "userStatus") with
            | some u => u.is_signed_in
            | none => false) = false) :
    (authCookieHandler body (.response resp)).reply =
      .ok (.notSignedIn (normalizeUser (authDomainOf body)
        ((json.getField "data").optChain "userStatus"))) ∧
    (AuthReply.notSignedIn (normalizeUser (authDomainOf body)
        ((json.getField "data").optChain "userStatus"))).status = 401 ∧
    (authCookieHandler body (.response resp)).stored = none := by
  have hne : authCookieOf body ≠ "" := by
    intro hc
    rw [hc, show extractCookieValue "" "csrftoken" = none from rfl] at hcs
    cases hcs
  have hg : lcGraphql (.response resp) =
      .ok { ok := true, status := 200, error := none, raw := none,
            data := some (json.getField "data") } := by
    simp [lcGraphql, hjson, hok, herr]
  cases hn : normalizeUser (authDomainOf body)
      ((json.getField "data").optChain "userStatus") with
  | none =>
      refine ⟨?_, rfl, ?_⟩ <;>
        simp [authCookieHandler, if_neg hne, hcs, hls, hg, hn]
  | some u =>
      have hns' : u.is_signed_in = false := by
        rw [hn] at hns
        simpa using hns
      refine ⟨?_, rfl, ?_⟩ <;>
        simp [authCookieHandler, if_neg hne, hcs, hls, hg, hn, hns']

/-- C3 witness: a syntactically valid cookie whose upstream user status
reports `is_signed_in: false` yields NOT_SIGNED_IN carrying the partial
profile, with nothing persisted. -/
theorem c3_not_signed_in_witness :
    (authCookieHandler
        { cookie := some "csrftoken=a; LEETCODE_SESSION=b", domain := none }
        (.response
          { status := 200
            bodyText := "x"
            bodyJson := some (.vObj [("data", .vObj [("userStatus",
              .vObj [("is_signed_in", .vBool false), ("name", .vStr "u")])])]) })).stored =
      none := by
  have h := c3_not_signed_in
    { cookie := some "csrftoken=a; LEETCODE_SESSION=b", domain := none }
    { status := 200
      bodyText := "x"
      bodyJson := some (.vObj [("data", .vObj [("userStatus",
        .vObj [("is_signed_in", .vBool false), ("name", .vStr "u")])])]) }
    (.vObj [("data", .vObj [("userStatus",
      .vObj [("is_signed_in", .vBool false), ("name", .vStr "u")])])])
    "a" "b" (by decide) (by decide) (by decide) rfl (by decide) (by decide)
  exact h.2.2

/-! ## Claim C4: is_verified trichotomy and the emailNotVerified flag -/

/-- C4: for a truthy upstream `userStatus` the normalized profile
exists; its `is_signed_in` is the definite boolean coercion of the
upstream field; `is_verified` keeps an upstream boolean, maps an unknown
(nullish) upstream value to `null` — never to `false` — and coerces any
other value by truthiness; and whenever the sign-in handler replies with
success, the `emailNotVerified` flag equals the test that `is_verified`
is strictly `false`. -/
theorem c4_is_verified_policy (domain : String) (us : JsVal)
    (h : us.truthy = true) :
    (normalizeUser domain us).isSome = true ∧
    (∀ p, normalizeUser domain us = some p →
      p.is_signed_in = (us.getField "is_signed_in").truthy ∧
      p.is_verified = (match us.getField "is_verified" with
                       | .vBool b => some b
                       | v => if v.nullish then none else some v.truthy) ∧
      ((us.getField "is_verified").nullish = true → p.is_verified = none)) ∧
    (∀ body up u env,
      (authCookieHandler body up).reply = .ok (.success u env) →
      env = (u.is_verified == some false)) := by
  refine ⟨?_, ?_, ?_⟩
  · by_cases hcn : isCnDomain domain = true <;> simp [normalizeUser, h, hcn]
  · intro p hp
    by_cases hcn : isCnDomain domain = true <;>
      simp only [normalizeUser, h, hcn, Bool.false_eq_true, if_false, if_true,
        Bool.true_eq_false, Option.some.injEq] at hp <;>
      subst hp <;>
      refine ⟨rfl, rfl, ?_⟩ <;>
      · intro hnul
        cases hv : us.getField "is_verified" <;> rw [hv] at hnul <;>
          simp [JsVal.nullish] at hnul <;> simp [hv, JsVal.nullish]
  · intro body up u env h2
    simp only [authCookieHandler] at h2
    repeat' split at h2
    all_goals try simp_all
    obtain ⟨h2a, h2b⟩ := h2
    subst h2a
    exact h2b.symm

/-- C4 witness: a signed-in upstream status with a `null` verification
value normalizes to a profile whose `is_verified` is `null`, not
`false`. -/
theorem c4_is_verified_policy_witness :
    Option.map (fun p => p.is_verified)
      (normalizeUser "leetcode.com"
        (.vObj [("is_signed_in", .vBool true), ("is_verified", .vNull)])) =
      some none := by
  have h := c4_is_verified_policy "leetcode.com"
    (.vObj [("is_signed_in", .vBool true), ("is_verified", .vNull)]) (by decide)
  cases hv : normalizeUser "leetcode.com"
      (.vObj [("is_signed_in", .vBool true), ("is_verified", .vNull)]) with
  | none =>
      rw [hv] at h
      exact absurd h.1 (by simp)
  | some p =>
      have hnv := (h.2.1 p hv).2.2 (by decide)
      simp [hnv]

end LcProxy
